import Mathlib

/-!
Shallow embedding of the policy question-answering pipeline
(`vectordb.py` and `agents.py` of the Multi-Agent-System repository).

Pure string manipulation (query normalization, stripping, passage
formatting) is translated directly.  The external collaborators
(FAISS vector store, text splitter, the language model) are modelled
as an oracle record `MAS.Env`; the filesystem and the process-wide
`VECTORSTORE` global are explicit state (`MAS.FS`, `MAS.ModState`).
A `builds` counter records every execution of the embedding/build step
(`FAISS.from_texts` inside `create_vector_db`), and the summarization
agent reports how many model invocations it performed, so that claims
about "no rebuild" and "no model call" are statable.

Character-level functions model Python's behaviour on the ASCII
fragment (`str.lower`, `str.strip`, and the regex classes `\w`, `\s`);
code points outside ASCII are handled like Python handles non-word,
non-space characters unless `Char.isAlphanum` already covers them.
-/

namespace MAS

/-- Python `\s` / `str.strip` whitespace class (ASCII fragment):
space, tab, newline, carriage return, vertical tab, form feed. -/
def isPySpace (c : Char) : Bool :=
  c == ' ' || c == '\t' || c == '\n' || c == '\r' || c == '\x0b' || c == '\x0c'

/-- Python `\w` word-character class (ASCII fragment): letters, digits, underscore. -/
def isWordChar (c : Char) : Bool :=
  c.isAlphanum || c == '_'

/-- `str.strip()` on a character list: drop whitespace from both ends. -/
def pyStripL (l : List Char) : List Char :=
  ((l.dropWhile isPySpace).reverse.dropWhile isPySpace).reverse

/-- Python `str.strip()` with no arguments. -/
def pyStrip (s : String) : String :=
  ⟨pyStripL s.data⟩

/-- `re.sub(r"\s+", " ", ·)` on a character list: each maximal run of
whitespace becomes a single space (the space is emitted at the end of
the run, when the run is left). -/
def collapseWs : List Char → List Char
  | [] => []
  | [c] => if isPySpace c then [' '] else [c]
  | c :: d :: rest =>
    if isPySpace c then
      if isPySpace d then collapseWs (d :: rest)
      else ' ' :: collapseWs (d :: rest)
    else c :: collapseWs (d :: rest)

/-- One step of `re.sub(r"[^\w\s]", " ", ·)`: a non-word non-space
character becomes a space, anything else is kept. -/
def punctToSpace (c : Char) : Char :=
  if !(isWordChar c) && !(isPySpace c) then ' ' else c

/-- `re.sub(r"[^\w\s]", " ", ·)` on a character list: the pattern matches
one character at a time, so each non-word non-space character is
replaced by one space. -/
def subPunct (l : List Char) : List Char :=
  l.map punctToSpace

/-- `agents._clean_query`: lowercase, replace punctuation by spaces
(`re.sub(r"[^\w\s]", " ", ·)`), collapse whitespace runs
(`re.sub(r"\s+", " ", ·)`), then `strip()`. -/
def _clean_query (text : String) : String :=
  let lowered := text.data.map Char.toLower
  let no_punct := subPunct lowered
  ⟨pyStripL (collapseWs no_punct)⟩

/-- The list-level core of `_clean_query`. -/
def cleanL (l : List Char) : List Char :=
  pyStripL (collapseWs (subPunct (l.map Char.toLower)))

/-- Two adjacent characters are not both whitespace. -/
def SpaceApart (a b : Char) : Prop :=
  ¬(isPySpace a = true ∧ isPySpace b = true)

/-- A character list is in collapsed form: every whitespace character
is a plain space, and no two adjacent characters are both whitespace. -/
def Tidy (m : List Char) : Prop :=
  (∀ c ∈ m, isPySpace c = true → c = ' ') ∧ m.Chain' SpaceApart

/-- Reference collapse used by the specification reading: walk the
string once, emitting a single space at the start of each whitespace
run and skipping the rest of the run (`prev` remembers whether the
previous character was whitespace). -/
def collapseRuns : Bool → List Char → List Char
  | _, [] => []
  | prev, c :: rest =>
    if isPySpace c then
      if prev then collapseRuns true rest
      else ' ' :: collapseRuns true rest
    else c :: collapseRuns false rest

/-- The reference normalization transformation stated by the spec:
lowercase the string, replace every punctuation (non-word, non-space)
character with whitespace, collapse every whitespace run to a single
space, and strip leading and trailing whitespace. -/
def cleanQuerySpec (text : String) : String :=
  let lowered := text.data.map Char.toLower
  let punctToWs := lowered.map fun c => if isWordChar c || isPySpace c then c else ' '
  ⟨pyStripL (collapseRuns false punctToWs)⟩

/-- A PDF file as seen through `pypdf.PdfReader`: the per-page results of
`page.extract_text()` (`none` models a page yielding no text object). -/
structure Pdf where
  pages : List (Option String)
deriving DecidableEq, Repr

/-- Abstract handle for a FAISS vector store instance. -/
structure Store where
  id : Nat
deriving DecidableEq, Repr

/-- A retrieved document: text content plus (discarded) metadata. -/
structure Doc where
  page_content : String
  metadata : List (String × String)
deriving DecidableEq, Repr

/-- The filesystem fragment the module touches: which paths exist,
which paths hold readable PDFs, and which directories hold a persisted
FAISS index. -/
structure FS where
  existing : List String
  pdfFiles : List (String × Pdf)
  persisted : List (String × Store)
deriving DecidableEq, Repr

/-- `Path(p).exists()`. -/
def pathExists (fs : FS) (p : String) : Bool :=
  fs.existing.contains p

/-- Split a character list at every occurrence of a separator
character (the splitting behind path-component and extension
handling). -/
def splitOnChar (sep : Char) : List Char → List (List Char)
  | [] => [[]]
  | c :: rest =>
    let r := splitOnChar sep rest
    if c == sep then [] :: r
    else
      match r with
      | [] => [[c]]
      | g :: gs => (c :: g) :: gs

/-- `Path(p).name`: the last non-empty `/`-separated component
(`.`/`..` normalization is not modelled; no claim depends on it). -/
def pathName (p : String) : String :=
  ⟨((((splitOnChar '/' p.data).filter (fun g => g ≠ [])).getLast?).getD [])⟩

/-- `Path(p).suffix`: the extension from the last dot of the name,
empty when the name has no dot, starts with its only dot, or ends
with the dot (the last condition is Python's `0 < i < len(name)-1`
on the position of the last dot). -/
def pathSuffix (p : String) : String :=
  let parts := splitOnChar '.' (pathName p).data
  if parts.length ≥ 2 ∧ parts.getLast? ≠ some [] ∧ parts.dropLast ≠ [[]] then
    "." ++ ⟨(parts.getLast?).getD []⟩
  else ""

/-- `str.lower()` (ASCII fragment, via `Char.toLower`). -/
def pyLower (s : String) : String :=
  ⟨s.data.map Char.toLower⟩

/-- Error taxonomy of the module (each constructor is one `raise` site;
the spec names them NotFound / InvalidFormat / EmptyContent /
EmptyInput / NoChunksProduced / EmptyQuery).  `unreadable` models
`PdfReader` itself failing on a file it cannot parse, and `loadFailed`
models `FAISS.load_local` failing on a directory that exists but holds
no index. -/
inductive Err where
  | fileNotFound
  | invalidFormat
  | emptyContent
  | emptyInput
  | noChunks
  | emptyQuery
  | unreadable
  | loadFailed
deriving DecidableEq, Repr

instance exceptDecEq {ε α : Type} [DecidableEq ε] [DecidableEq α] :
    DecidableEq (Except ε α) := fun x y =>
  match x, y with
  | .ok a, .ok b =>
    if h : a = b then isTrue (by rw [h])
    else isFalse fun hc => h (by injection hc)
  | .error e, .error f =>
    if h : e = f then isTrue (by rw [h])
    else isFalse fun hc => h (by injection hc)
  | .ok _, .error _ => isFalse fun hc => Except.noConfusion hc
  | .error _, .ok _ => isFalse fun hc => Except.noConfusion hc

/-- External collaborators, modelled as oracles: the text splitter,
`FAISS.from_texts`, `FAISS.similarity_search`, and the summarization
LLM chain. -/
structure Env where
  splitText : Nat → Nat → String → List String
  fromTexts : List String → Store
  similaritySearch : Store → String → Nat → List Doc
  summaryChain : String → String → String

/-- `vectordb.DEFAULT_PDF_PATH`. -/
def DEFAULT_PDF_PATH : String := "Sample Policies.pdf"

/-- `vectordb.DEFAULT_INDEX_DIR`. -/
def DEFAULT_INDEX_DIR : String := "policy_faiss_index"

/-- `vectordb._validate_pdf_path`: existence check first, then the
extension check on `suffix.lower()`. -/
def _validate_pdf_path (fs : FS) (pdf_path : String) : Except Err Unit :=
  if !(pathExists fs pdf_path) then .error .fileNotFound
  else if pyLower (pathSuffix pdf_path) ≠ ".pdf" then .error .invalidFormat
  else .ok ()

/-- `vectordb.load_pdf_text`: validate the path, read the pages, fail if
there are none, join the stripped page texts with newlines, strip the
result, and fail if it is empty. -/
def load_pdf_text (fs : FS) (pdf_path : String) : Except Err String :=
  match _validate_pdf_path fs pdf_path with
  | .error e => .error e
  | .ok _ =>
    match fs.pdfFiles.lookup pdf_path with
    | none => .error .unreadable
    | some reader =>
      if reader.pages.isEmpty then .error .emptyContent
      else
        let text := pyStrip (String.intercalate "\n"
          (reader.pages.map fun page => pyStrip (page.getD "")))
        if text = "" then .error .emptyContent
        else .ok text

/-- `vectordb.chunk_text`: reject empty text, split via the external
splitter, reject an empty chunk list. -/
def chunk_text (env : Env) (text : String)
    (chunk_size : Nat := 1000) (chunk_overlap : Nat := 150) :
    Except Err (List String) :=
  if text = "" then .error .emptyInput
  else
    let chunks := env.splitText chunk_size chunk_overlap text
    if chunks.isEmpty then .error .noChunks
    else .ok chunks

/-- `vectordb.create_vector_db`: load the PDF text, chunk it, and build
an in-memory store with `FAISS.from_texts`. -/
def create_vector_db (env : Env) (fs : FS) (pdf_path : String)
    (chunk_size : Nat := 1000) (chunk_overlap : Nat := 150) :
    Except Err Store :=
  match load_pdf_text fs pdf_path with
  | .error e => .error e
  | .ok text =>
    match chunk_text env text chunk_size chunk_overlap with
    | .error e => .error e
    | .ok chunks => .ok (env.fromTexts chunks)

/-- `vectordb.save_vector_db`: create the directory if absent and write
the index into it (overwriting any previous index there). -/
def save_vector_db (fs : FS) (vectorstore : Store) (index_dir : String) : FS :=
  { fs with
    existing := if fs.existing.contains index_dir then fs.existing
                else index_dir :: fs.existing
    persisted := (index_dir, vectorstore) :: fs.persisted }

/-- `vectordb.load_vector_db`: fail if the directory is absent,
otherwise deserialize the persisted index. -/
def load_vector_db (fs : FS) (index_dir : String) : Except Err Store :=
  if !(pathExists fs index_dir) then .error .fileNotFound
  else
    match fs.persisted.lookup index_dir with
    | some store => .ok store
    | none => .error .loadFailed

/-- Module state: the filesystem, the global `VECTORSTORE` handle, and
an instrumentation counter of how many times the build (embedding)
step has run. -/
structure ModState where
  fs : FS
  vectorstore : Option Store
  builds : Nat
deriving DecidableEq, Repr

/-- `vectordb.init_vectorstore`: if the index directory exists, load
it into the global handle; otherwise build from the PDF, persist, and
set the global handle.  Exceptions propagate leaving the state as the
partially-updated Python state (no assignment happens on a raise). -/
def init_vectorstore (env : Env) (s : ModState)
    (pdf_path : String := DEFAULT_PDF_PATH)
    (index_dir : String := DEFAULT_INDEX_DIR) :
    Except Err Store × ModState :=
  if pathExists s.fs index_dir then
    match load_vector_db s.fs index_dir with
    | .error e => (.error e, s)
    | .ok store => (.ok store, { s with vectorstore := some store })
  else
    match create_vector_db env s.fs pdf_path with
    | .error e => (.error e, s)
    | .ok store =>
      (.ok store,
        { fs := save_vector_db s.fs store index_dir
          vectorstore := some store
          builds := s.builds + 1 })

/-- `vectordb.get_vectorstore`: return the global handle, initializing
it with the defaults on first use. -/
def get_vectorstore (env : Env) (s : ModState) : Except Err Store × ModState :=
  match s.vectorstore with
  | some store => (.ok store, s)
  | none => init_vectorstore env s

/-- Default `k` of `vectordb.query_vector_db`. -/
def queryDefaultK : Nat := 5

/-- `vectordb.query_vector_db`: reject blank queries, then run a
similarity search on the (lazily initialized) global store and return
only the text content of each hit. -/
def query_vector_db (env : Env) (s : ModState) (query : String)
    (k : Nat := queryDefaultK) : Except Err (List String) × ModState :=
  if pyStrip query = "" then (.error .emptyQuery, s)
  else
    match get_vectorstore env s with
    | (.error e, s') => (.error e, s')
    | (.ok vectorstore, s') =>
      (.ok ((env.similaritySearch vectorstore query k).map Doc.page_content), s')

/-- `str.join` of Python: `sep.join(parts)`. -/
def pyJoin (sep : String) : List String → String
  | [] => ""
  | [a] => a
  | a :: rest => a ++ sep ++ pyJoin sep rest

/-- The `k=3` literal at the `query_vector_db` call site inside
`agents.policy_lookup`. -/
def policyLookupTopK : Nat := 3

/-- `agents.policy_lookup` with the retrieval depth made explicit. -/
def policy_lookup_atK (env : Env) (s : ModState) (query : String) (k : Nat) :
    Except Err String × ModState :=
  match query_vector_db env s query k with
  | (.error e, s') => (.error e, s')
  | (.ok passages, s') =>
    if passages.isEmpty then (.ok "NO_MATCH", s')
    else
      (.ok (pyJoin "\n\n" ((List.enumFrom 1 passages).map
        fun p => "[Passage " ++ toString p.1 ++ "] " ++ pyStrip p.2)), s')

/-- `agents.policy_lookup`: query the vector store with `k=3`; return
`"NO_MATCH"` when nothing came back, otherwise the stripped passages
numbered from 1 and joined by blank lines. -/
def policy_lookup (env : Env) (s : ModState) (query : String) :
    Except Err String × ModState :=
  policy_lookup_atK env s query policyLookupTopK

/-- The fixed apology string of `agents.run_summary_agent`. -/
def APOLOGY : String := "I could not find any policy text that answers that question."

/-- `agents.run_summary_agent`: when the stripped passages equal
`"NO_MATCH"` return the apology without touching the model, otherwise
invoke the summary chain.  The second component counts model
invocations. -/
def run_summary_agent (env : Env) (question passages : String) : String × Nat :=
  if pyStrip passages = "NO_MATCH" then (APOLOGY, 0)
  else (env.summaryChain question passages, 1)

/-- Literal reading of the spec sentence for the PDF loader's success
value: "the whitespace-trimmed concatenation of all page texts, joined
by newlines" — the trim is applied only to the final concatenation,
not to each page text. -/
def loadedTextSpecLiteral (reader : Pdf) : String :=
  pyStrip (String.intercalate "\n" (reader.pages.map fun page => page.getD ""))

/-- Concrete oracle whose similarity search finds nothing (fixture). -/
def envEmpty : Env :=
  ⟨fun _ _ t => [t], fun _ => ⟨0⟩, fun _ _ _ => [], fun _ _ => "summary"⟩

/-- Concrete oracle whose similarity search returns one document (fixture). -/
def envOne : Env :=
  ⟨fun _ _ t => [t], fun _ => ⟨0⟩,
    fun _ _ _ => [⟨" Policy text. ", [("page", "1")]⟩], fun _ _ => "summary"⟩

/-- Concrete filesystem with one readable policy PDF (fixture). -/
def fsW : FS := ⟨["p.pdf"], [("p.pdf", ⟨[some "hello"]⟩)], []⟩

/-- Concrete filesystem exercising each PDF-loader case (fixture). -/
def fsC4 : FS :=
  ⟨["doc.pdf", "notes.txt", "empty.pdf", "blank.pdf"],
    [("doc.pdf", ⟨[some " a ", some "b"]⟩),
      ("empty.pdf", ⟨[]⟩),
      ("blank.pdf", ⟨[some "  ", none]⟩)], []⟩

/-- Uninitialized module state over `fsW` (fixture). -/
def sNone : ModState := ⟨fsW, none, 0⟩

/-- Initialized module state holding store 7 (fixture). -/
def sSome : ModState := ⟨fsW, some ⟨7⟩, 0⟩

/-- The state after the first `init_vectorstore` run from `sNone` with
PDF "p.pdf" and index directory "idx" under `envOne` (fixture). -/
def s1W : ModState :=
  ⟨⟨["idx", "p.pdf"], [("p.pdf", ⟨[some "hello"]⟩)], [("idx", ⟨0⟩)]⟩, some ⟨0⟩, 1⟩

theorem char_toNat_ofNat (n : Nat) (h : n.isValidChar) :
    (Char.ofNat n).val.toNat = n := by
  simp [Char.ofNat, h, Char.ofNatAux, UInt32.toNat]

theorem toLower_toLower (c : Char) : c.toLower.toLower = c.toLower := by
  unfold Char.toLower
  simp only [Char.toNat]
  split
  · rename_i h
    have hv : (c.val.toNat + 32).isValidChar := by
      rcases h with ⟨h1, h2⟩
      left
      omega
    rw [char_toNat_ofNat _ hv]
    split
    · rename_i h2
      omega
    · rfl
  · rfl

theorem punctToSpace_keep {c : Char} (h : (isWordChar c || isPySpace c) = true) :
    punctToSpace c = c := by
  unfold punctToSpace
  rcases Bool.or_eq_true_iff.mp h with h' | h' <;> simp [h']

theorem punctToSpace_cases (c : Char) :
    punctToSpace c = ' ' ∨
      (punctToSpace c = c ∧ (isWordChar c || isPySpace c) = true) := by
  unfold punctToSpace
  by_cases hw : isWordChar c = true <;> by_cases hs : isPySpace c = true <;>
    simp [hw, hs]

theorem punctToSpace_toLower_idem (c : Char) :
    punctToSpace (Char.toLower (punctToSpace (Char.toLower c))) =
      punctToSpace (Char.toLower c) := by
  rcases punctToSpace_cases (Char.toLower c) with h | ⟨h, hk⟩
  · rw [h]
    decide
  · rw [h, toLower_toLower, h]

theorem collapseWs_cons_not_space {d : Char} (t : List Char)
    (h : isPySpace d = false) : collapseWs (d :: t) = d :: collapseWs t := by
  cases t <;> simp [collapseWs, h]

theorem collapseWs_space_cons (rest : List Char) :
    ∀ c : Char, isPySpace c = true →
      collapseWs (c :: rest) = ' ' :: collapseWs (rest.dropWhile isPySpace) := by
  induction rest with
  | nil =>
    intro c hc
    simp [collapseWs, hc]
  | cons d t ih =>
    intro c hc
    by_cases hd : isPySpace d = true
    · rw [show collapseWs (c :: d :: t) = collapseWs (d :: t) by
        simp [collapseWs, hc, hd]]
      rw [ih d hd]
      simp [List.dropWhile_cons, hd]
    · have hd' : isPySpace d = false := by simpa using hd
      rw [show collapseWs (c :: d :: t) = ' ' :: collapseWs (d :: t) by
        simp [collapseWs, hc, hd']]
      simp [List.dropWhile_cons, hd']

theorem mem_collapseWs {x : Char} :
    ∀ {m : List Char}, x ∈ collapseWs m → x = ' ' ∨ x ∈ m := by
  intro m
  induction m with
  | nil => simp [collapseWs]
  | cons c rest ih =>
    intro hx
    cases rest with
    | nil =>
      by_cases hc : isPySpace c = true
      · simp [collapseWs, hc] at hx
        exact Or.inl hx
      · simp [collapseWs, hc] at hx
        subst hx
        exact Or.inr (by simp)
    | cons d t =>
      by_cases hc : isPySpace c = true
      · by_cases hd : isPySpace d = true
        · rw [show collapseWs (c :: d :: t) = collapseWs (d :: t) by
            simp [collapseWs, hc, hd]] at hx
          rcases ih hx with h | h
          · exact Or.inl h
          · exact Or.inr (by simp [h])
        · have hd' : isPySpace d = false := by simpa using hd
          rw [show collapseWs (c :: d :: t) = ' ' :: collapseWs (d :: t) by
            simp [collapseWs, hc, hd']] at hx
          rcases List.mem_cons.mp hx with h | h
          · exact Or.inl h
          · rcases ih h with h' | h'
            · exact Or.inl h'
            · exact Or.inr (by simp [List.mem_cons.mp h'])
      · have hc' : isPySpace c = false := by simpa using hc
        rw [show collapseWs (c :: d :: t) = c :: collapseWs (d :: t) by
          simp [collapseWs, hc']] at hx
        rcases List.mem_cons.mp hx with h | h
        · exact Or.inr (by simp [h])
        · rcases ih h with h' | h'
          · exact Or.inl h'
          · exact Or.inr (by simp [List.mem_cons.mp h'])

theorem mem_pyStripL {x : Char} {m : List Char} (h : x ∈ pyStripL m) : x ∈ m := by
  unfold pyStripL at h
  rw [List.mem_reverse] at h
  have h1 := (List.dropWhile_sublist isPySpace).subset h
  rw [List.mem_reverse] at h1
  exact (List.dropWhile_sublist isPySpace).subset h1

theorem spaceApart_of_not_space_left {a b : Char} (h : isPySpace a = false) :
    SpaceApart a b := by
  intro hab
  rw [h] at hab
  exact absurd hab.1 (by simp)

theorem spaceApart_of_not_space_right {a b : Char} (h : isPySpace b = false) :
    SpaceApart a b := by
  intro hab
  rw [h] at hab
  exact absurd hab.2 (by simp)

theorem chain'_spaceApart_reverse {l : List Char}
    (h : l.Chain' SpaceApart) : l.reverse.Chain' SpaceApart := by
  rw [List.chain'_reverse]
  exact h.imp fun a b hab => fun ⟨h1, h2⟩ => hab ⟨h2, h1⟩

theorem tidy_collapseWs : ∀ m : List Char, Tidy (collapseWs m) := by
  intro m
  induction m with
  | nil => exact ⟨by simp [collapseWs], by simp [collapseWs]⟩
  | cons c rest ih =>
    cases rest with
    | nil =>
      by_cases hc : isPySpace c = true
      · refine ⟨?_, by simp [collapseWs, hc, List.chain'_singleton]⟩
        simp [collapseWs, hc]
      · have hc' : isPySpace c = false := by simpa using hc
        refine ⟨?_, by simp [collapseWs, hc', List.chain'_singleton]⟩
        intro x hx hs
        simp [collapseWs, hc'] at hx
        subst hx
        rw [hc'] at hs
        exact absurd hs (by simp)
    | cons d t =>
      by_cases hc : isPySpace c = true
      · by_cases hd : isPySpace d = true
        · rw [show collapseWs (c :: d :: t) = collapseWs (d :: t) by
            simp [collapseWs, hc, hd]]
          exact ih
        · have hd' : isPySpace d = false := by simpa using hd
          rw [show collapseWs (c :: d :: t) = ' ' :: collapseWs (d :: t) by
            simp [collapseWs, hc, hd']]
          refine ⟨?_, ?_⟩
          · intro x hx hs
            rcases List.mem_cons.mp hx with h | h
            · exact h
            · exact ih.1 x h hs
          · rw [List.chain'_cons']
            refine ⟨?_, ih.2⟩
            intro y hy
            rw [collapseWs_cons_not_space t hd'] at hy
            simp at hy
            subst hy
            exact spaceApart_of_not_space_right hd'
      · have hc' : isPySpace c = false := by simpa using hc
        rw [show collapseWs (c :: d :: t) = c :: collapseWs (d :: t) by
          simp [collapseWs, hc']]
        refine ⟨?_, ?_⟩
        · intro x hx hs
          rcases List.mem_cons.mp hx with h | h
          · subst h
            rw [hc'] at hs
            exact absurd hs (by simp)
          · exact ih.1 x h hs
        · rw [List.chain'_cons']
          exact ⟨fun y _ => spaceApart_of_not_space_left hc', ih.2⟩

theorem tidy_tail {c : Char} {m : List Char} (h : Tidy (c :: m)) : Tidy m := by
  refine ⟨fun x hx hs => h.1 x (by simp [hx]) hs, ?_⟩
  exact (List.chain'_cons'.mp h.2).2

theorem tidy_fix : ∀ m : List Char, Tidy m → collapseWs m = m := by
  intro m
  induction m with
  | nil => intro _; rfl
  | cons c rest ih =>
    intro h
    cases rest with
    | nil =>
      by_cases hc : isPySpace c = true
      · have hce : c = ' ' := h.1 c (by simp) hc
        subst hce
        simp [collapseWs]
      · have hc' : isPySpace c = false := by simpa using hc
        simp [collapseWs, hc']
    | cons d t =>
      have hcd : SpaceApart c d := (List.chain'_cons.mp h.2).1
      by_cases hc : isPySpace c = true
      · by_cases hd : isPySpace d = true
        · exact absurd ⟨hc, hd⟩ hcd
        · have hd' : isPySpace d = false := by simpa using hd
          have hce : c = ' ' := h.1 c (by simp) hc
          rw [show collapseWs (c :: d :: t) = ' ' :: collapseWs (d :: t) by
            simp [collapseWs, hc, hd']]
          rw [ih (tidy_tail h), hce]
      · have hc' : isPySpace c = false := by simpa using hc
        rw [show collapseWs (c :: d :: t) = c :: collapseWs (d :: t) by
          simp [collapseWs, hc']]
        rw [ih (tidy_tail h)]

theorem tidy_pyStripL {m : List Char} (h : Tidy m) : Tidy (pyStripL m) := by
  refine ⟨fun x hx hs => h.1 x (mem_pyStripL hx) hs, ?_⟩
  unfold pyStripL
  apply chain'_spaceApart_reverse
  apply List.Chain'.suffix _ (List.dropWhile_suffix isPySpace)
  apply chain'_spaceApart_reverse
  exact List.Chain'.suffix h.2 (List.dropWhile_suffix isPySpace)

theorem dropWhile_dropWhile (p : Char → Bool) (l : List Char) :
    List.dropWhile p (List.dropWhile p l) = List.dropWhile p l := by
  cases h : List.dropWhile p l with
  | nil => simp
  | cons x t =>
    have hx : p x = false := by
      have hx0 := List.head?_dropWhile_not p l
      rw [h] at hx0
      simpa using hx0
    simp [List.dropWhile_cons, hx]

theorem dropWhile_of_head_false {p : Char → Bool} {l : List Char} {x : Char}
    (hh : l.head? = some x) (hx : p x = false) : List.dropWhile p l = l := by
  cases l with
  | nil => simp at hh
  | cons a t =>
    simp at hh
    subst hh
    simp [List.dropWhile_cons, hx]

theorem getLast?_dropWhile_of_ne_nil (p : Char → Bool) (l : List Char)
    (h : List.dropWhile p l ≠ []) :
    (List.dropWhile p l).getLast? = l.getLast? := by
  obtain ⟨t, ht⟩ := List.dropWhile_suffix p (l := l)
  conv_rhs => rw [← ht, List.getLast?_append]
  cases hd : (List.dropWhile p l).getLast? with
  | none => exact absurd (List.getLast?_eq_none_iff.mp hd) h
  | some a => simp [hd]

theorem pyStripL_idem (m : List Char) : pyStripL (pyStripL m) = pyStripL m := by
  by_cases hB : List.dropWhile isPySpace (List.dropWhile isPySpace m).reverse = []
  · unfold pyStripL
    rw [hB]
    simp
  · have hA : List.dropWhile isPySpace m ≠ [] := by
      intro h
      rw [h] at hB
      simp at hB
    obtain ⟨a, ha⟩ : ∃ a, (List.dropWhile isPySpace m).head? = some a := by
      cases h : (List.dropWhile isPySpace m).head? with
      | none => exact absurd (by simpa using h) hA
      | some a => exact ⟨a, rfl⟩
    have ha' : isPySpace a = false := by
      have ha0 := List.head?_dropWhile_not isPySpace m
      rw [ha] at ha0
      simpa using ha0
    have hlast : ((List.dropWhile isPySpace
        (List.dropWhile isPySpace m).reverse).reverse).head? = some a := by
      rw [List.head?_reverse]
      rw [getLast?_dropWhile_of_ne_nil _ _ hB]
      rw [List.getLast?_reverse]
      exact ha
    show pyStripL (pyStripL m) = pyStripL m
    unfold pyStripL
    rw [dropWhile_of_head_false hlast ha']
    rw [List.reverse_reverse]
    rw [dropWhile_dropWhile]

theorem cleanL_char_fixed {l : List Char} {x : Char} (hx : x ∈ cleanL l) :
    punctToSpace (Char.toLower x) = x := by
  unfold cleanL at hx
  rcases mem_collapseWs (mem_pyStripL hx) with h | h
  · subst h
    decide
  · unfold subPunct at h
    rw [List.map_map] at h
    rcases List.mem_map.mp h with ⟨c, _, hc⟩
    subst hc
    exact punctToSpace_toLower_idem c

theorem tidy_cleanL (l : List Char) : Tidy (cleanL l) :=
  tidy_pyStripL (tidy_collapseWs _)

theorem cleanL_idem (l : List Char) : cleanL (cleanL l) = cleanL l := by
  have h1 : subPunct ((cleanL l).map Char.toLower) = cleanL l := by
    unfold subPunct
    rw [List.map_map]
    have hpt : ∀ x ∈ cleanL l, (punctToSpace ∘ Char.toLower) x = id x :=
      fun x hx => cleanL_char_fixed hx
    rw [List.map_congr_left hpt, List.map_id]
  have h2 : collapseWs (cleanL l) = cleanL l := tidy_fix _ (tidy_cleanL l)
  show pyStripL (collapseWs (subPunct ((cleanL l).map Char.toLower))) = cleanL l
  rw [h1, h2]
  exact pyStripL_idem _

theorem collapseRuns_eq (l : List Char) :
    ∀ b : Bool,
      collapseRuns b l = collapseWs (if b then l.dropWhile isPySpace else l) := by
  induction l with
  | nil => intro b; cases b <;> rfl
  | cons c rest ih =>
    intro b
    by_cases hc : isPySpace c = true
    · cases b with
      | false =>
        simp only [collapseRuns, hc, if_true, Bool.false_eq_true, if_false,
          ih true, if_pos, collapseWs_space_cons rest c hc]
      | true =>
        simp only [collapseRuns, hc, if_true, ih true, List.dropWhile_cons]
    · have hc' : isPySpace c = false := by simpa using hc
      cases b with
      | false =>
        simp only [collapseRuns, hc', Bool.false_eq_true, if_false,
          ih false, collapseWs_cons_not_space rest hc']
      | true =>
        simp only [collapseRuns, hc', Bool.false_eq_true, if_false, if_true,
          ih false, List.dropWhile_cons, collapseWs_cons_not_space rest hc']

theorem punctToSpace_eq_spec (c : Char) :
    (if isWordChar c || isPySpace c then c else ' ') = punctToSpace c := by
  unfold punctToSpace
  by_cases hw : isWordChar c = true <;> by_cases hs : isPySpace c = true <;>
    simp [hw, hs]

/-- C6: for every input string, `_clean_query` computes exactly the
reference transformation: lowercase, replace every punctuation
character with whitespace, collapse every whitespace run to a single
space, and strip leading and trailing whitespace. -/
theorem clean_query_matches_spec (s : String) :
    _clean_query s = cleanQuerySpec s := by
  show (⟨pyStripL (collapseWs (subPunct (s.data.map Char.toLower)))⟩ : String) =
    ⟨pyStripL (collapseRuns false ((s.data.map Char.toLower).map
      fun c => if isWordChar c || isPySpace c then c else ' '))⟩
  rw [List.map_congr_left fun c _ => punctToSpace_eq_spec c]
  rw [collapseRuns_eq _ false]
  simp [subPunct]

/-- C7: query normalization is idempotent, and on the concrete string
"What is the Policy — on VACATION?!" it yields
"what is the policy on vacation". -/
theorem clean_query_idempotent :
    (∀ s : String, _clean_query (_clean_query s) = _clean_query s) ∧
      _clean_query "What is the Policy — on VACATION?!" =
        "what is the policy on vacation" := by
  constructor
  · intro s
    show (⟨cleanL (cleanL s.data)⟩ : String) = ⟨cleanL s.data⟩
    rw [cleanL_idem]
  · decide

theorem pathExists_save_vector_db (fs : FS) (st : Store) (dir : String) :
    pathExists (save_vector_db fs st dir) dir = true := by
  unfold pathExists save_vector_db
  by_cases h : fs.existing.contains dir = true
  · rw [if_pos h]
    exact h
  · rw [if_neg h]
    simp [List.contains_cons]

theorem lookup_save_vector_db (fs : FS) (st : Store) (dir : String) :
    (save_vector_db fs st dir).persisted.lookup dir = some st := by
  unfold save_vector_db
  simp [List.lookup]

theorem init_preserves_some (env : Env) (s : ModState) (p d : String) :
    (init_vectorstore env s p d).2.vectorstore = none → s.vectorstore = none := by
  unfold init_vectorstore
  by_cases h : pathExists s.fs d = true
  · simp only [h, if_true]
    cases hl : load_vector_db s.fs d with
    | error e => exact fun hx => hx
    | ok store => intro hx; simp at hx
  · simp only [h, if_false]
    cases hc : create_vector_db env s.fs p with
    | error e => exact fun hx => hx
    | ok store => intro hx; simp at hx

theorem get_preserves_some (env : Env) (s : ModState) :
    (get_vectorstore env s).2.vectorstore = none → s.vectorstore = none := by
  unfold get_vectorstore
  cases hv : s.vectorstore with
  | none => intro _; rfl
  | some store => intro hx; simp at hx; rw [hv] at hx; simp at hx

theorem query_preserves_some (env : Env) (s : ModState) (q : String) (k : Nat) :
    (query_vector_db env s q k).2.vectorstore = none → s.vectorstore = none := by
  unfold query_vector_db
  by_cases h : pyStrip q = ""
  · simp only [h, if_pos rfl]
    exact fun hx => hx
  · simp only [h, if_neg h]
    cases hg : get_vectorstore env s with
    | mk r s' =>
      cases r with
      | error e =>
        intro hx
        apply get_preserves_some env s
        rw [hg]
        exact hx
      | ok store =>
        intro hx
        apply get_preserves_some env s
        rw [hg]
        exact hx

/-- C1: for every index directory: if it exists, `init_vectorstore`
loads from it (no build, filesystem untouched); if it does not exist,
a successful `init_vectorstore` builds from the PDF exactly once,
persists the built store into the directory, returns it, and a second
`init_vectorstore` on the resulting state loads the persisted store
without rebuilding (the build counter is bumped once by the first call
and not at all by the second). -/
theorem init_vectorstore_load_or_build (env : Env) (s : ModState)
    (pdf_path index_dir : String) (st : Store) (s₁ : ModState)
    (hdir : pathExists s.fs index_dir = false)
    (hrun : init_vectorstore env s pdf_path index_dir = (.ok st, s₁)) :
    create_vector_db env s.fs pdf_path = .ok st ∧
    s₁.builds = s.builds + 1 ∧
    pathExists s₁.fs index_dir = true ∧
    s₁.fs.persisted.lookup index_dir = some st ∧
    s₁.vectorstore = some st ∧
    init_vectorstore env s₁ pdf_path index_dir = (.ok st, s₁) ∧
    (∀ s₂ : ModState, pathExists s₂.fs index_dir = true →
      (init_vectorstore env s₂ pdf_path index_dir).2.builds = s₂.builds ∧
      (init_vectorstore env s₂ pdf_path index_dir).2.fs = s₂.fs ∧
      (init_vectorstore env s₂ pdf_path index_dir).1 =
        load_vector_db s₂.fs index_dir) := by
  have hload : ∀ s₂ : ModState, pathExists s₂.fs index_dir = true →
      (init_vectorstore env s₂ pdf_path index_dir).2.builds = s₂.builds ∧
      (init_vectorstore env s₂ pdf_path index_dir).2.fs = s₂.fs ∧
      (init_vectorstore env s₂ pdf_path index_dir).1 =
        load_vector_db s₂.fs index_dir := by
    intro s₂ h₂
    unfold init_vectorstore
    simp only [h₂, if_true]
    cases hl : load_vector_db s₂.fs index_dir with
    | error e => exact ⟨rfl, rfl, rfl⟩
    | ok store => exact ⟨rfl, rfl, rfl⟩
  unfold init_vectorstore at hrun
  simp only [hdir, Bool.false_eq_true, if_false] at hrun
  cases hc : create_vector_db env s.fs pdf_path with
  | error e =>
    rw [hc] at hrun
    simp at hrun
  | ok store =>
    rw [hc] at hrun
    simp only [Prod.mk.injEq, Except.ok.injEq] at hrun
    obtain ⟨h1, h2⟩ := hrun
    subst h1
    subst h2
    refine ⟨rfl, rfl, pathExists_save_vector_db s.fs store index_dir,
      lookup_save_vector_db s.fs store index_dir, rfl, ?_, hload⟩
    unfold init_vectorstore
    simp only [pathExists_save_vector_db s.fs store index_dir, if_true]
    rw [show load_vector_db (save_vector_db s.fs store index_dir) index_dir
        = .ok store by
      unfold load_vector_db
      simp only [pathExists_save_vector_db s.fs store index_dir]
      rw [lookup_save_vector_db s.fs store index_dir]
      simp]

/-- C2: once the process-wide handle is populated, `get_vectorstore`
returns that same store and leaves the state untouched (it does not
re-initialize), and no operation of the module ever moves the handle
from populated back to empty. -/
theorem vectorstore_singleton (env : Env) (s : ModState) (st : Store)
    (h : s.vectorstore = some st) :
    get_vectorstore env s = (.ok st, s) ∧
    (∀ (s' : ModState) (p d : String),
      (init_vectorstore env s' p d).2.vectorstore = none →
        s'.vectorstore = none) ∧
    (∀ s' : ModState,
      (get_vectorstore env s').2.vectorstore = none →
        s'.vectorstore = none) ∧
    (∀ (s' : ModState) (q : String) (k : Nat),
      (query_vector_db env s' q k).2.vectorstore = none →
        s'.vectorstore = none) := by
  refine ⟨?_, fun s' p d => init_preserves_some env s' p d,
    fun s' => get_preserves_some env s',
    fun s' q k => query_preserves_some env s' q k⟩
  unfold get_vectorstore
  rw [h]

/-- C10: a blank query makes `query_vector_db` fail with the
empty-query error before touching the process-wide store: the returned
state is exactly the input state, so no lazy initialization, load or
build happens on this error path. -/
theorem query_blank_leaves_state (env : Env) (s : ModState) (q : String)
    (k : Nat) (h : pyStrip q = "") :
    query_vector_db env s q k = (.error .emptyQuery, s) ∧
    (query_vector_db env s q k).2.vectorstore = s.vectorstore ∧
    (query_vector_db env s q k).2.builds = s.builds := by
  have h1 : query_vector_db env s q k = (.error .emptyQuery, s) := by
    unfold query_vector_db
    simp [h]
  exact ⟨h1, by rw [h1], by rw [h1]⟩

/-- C3: when the passages string strips to "NO_MATCH", the
summarization agent returns exactly the fixed apology string and
performs zero model invocations (the summary chain is not evaluated). -/
theorem summary_agent_no_match (env : Env) (question passages : String)
    (h : pyStrip passages = "NO_MATCH") :
    run_summary_agent env question passages =
      ("I could not find any policy text that answers that question.", 0) := by
  unfold run_summary_agent
  rw [if_pos h]
  rfl

/-- C3 witness at a concrete padded "NO_MATCH" input. -/
theorem summary_agent_no_match_witness :
    run_summary_agent envEmpty "q" "  NO_MATCH\t" =
      ("I could not find any policy text that answers that question.", 0) :=
  summary_agent_no_match envEmpty "q" "  NO_MATCH\t" (by decide)

/-- C4 counterexample: the loader strips each page text before joining,
so on a two-page PDF with page texts " a " and "b" it returns "a\nb",
not the value "a \nb" that trimming only the final concatenation (the
claim as stated) would give. -/
theorem load_pdf_text_outer_trim_refuted :
    load_pdf_text fsC4 "doc.pdf" = .ok "a\nb" ∧
    fsC4.pdfFiles.lookup "doc.pdf" = some ⟨[some " a ", some "b"]⟩ ∧
    loadedTextSpecLiteral ⟨[some " a ", some "b"]⟩ = "a \nb" ∧
    load_pdf_text fsC4 "doc.pdf" ≠
      .ok (loadedTextSpecLiteral ⟨[some " a ", some "b"]⟩) := by
  refine ⟨by decide, by decide, by decide, by decide⟩

/-- C4 (amended): the loader fails with NotFound on an absent path (the
existence check precedes the extension check), then with InvalidFormat
on a non-pdf extension, then with EmptyContent when the PDF has no
pages or no extractable text; on success it returns the
whitespace-trimmed newline-join of the per-page whitespace-trimmed
extracted texts. -/
theorem load_pdf_text_contract (fs : FS) (p : String) :
    (pathExists fs p = false → load_pdf_text fs p = .error .fileNotFound) ∧
    (pathExists fs p = true → pyLower (pathSuffix p) ≠ ".pdf" →
      load_pdf_text fs p = .error .invalidFormat) ∧
    (∀ reader : Pdf, fs.pdfFiles.lookup p = some reader →
      pathExists fs p = true → pyLower (pathSuffix p) = ".pdf" →
      ((reader.pages.isEmpty = true →
        load_pdf_text fs p = .error .emptyContent) ∧
      (reader.pages.isEmpty = false →
        pyStrip (String.intercalate "\n"
          (reader.pages.map fun page => pyStrip (page.getD ""))) = "" →
        load_pdf_text fs p = .error .emptyContent) ∧
      (reader.pages.isEmpty = false →
        pyStrip (String.intercalate "\n"
          (reader.pages.map fun page => pyStrip (page.getD ""))) ≠ "" →
        load_pdf_text fs p = .ok (pyStrip (String.intercalate "\n"
          (reader.pages.map fun page => pyStrip (page.getD ""))))))) := by
  refine ⟨?_, ?_, ?_⟩
  · intro h
    have hv : _validate_pdf_path fs p = .error .fileNotFound := by
      unfold _validate_pdf_path
      simp [h]
    unfold load_pdf_text
    rw [hv]
  · intro h hsuf
    have hv : _validate_pdf_path fs p = .error .invalidFormat := by
      unfold _validate_pdf_path
      simp only [h, Bool.not_true, Bool.false_eq_true, if_false]
      rw [if_pos hsuf]
    unfold load_pdf_text
    rw [hv]
  · intro reader hlook h hsuf
    have hval : _validate_pdf_path fs p = .ok () := by
      unfold _validate_pdf_path
      simp only [h, Bool.not_true, Bool.false_eq_true, if_false]
      rw [if_neg (by simp [hsuf])]
    have heq : load_pdf_text fs p =
        (if reader.pages.isEmpty then Except.error Err.emptyContent
        else if pyStrip (String.intercalate "\n"
            (reader.pages.map fun page => pyStrip (page.getD ""))) = "" then
          Except.error Err.emptyContent
        else Except.ok (pyStrip (String.intercalate "\n"
          (reader.pages.map fun page => pyStrip (page.getD ""))))) := by
      unfold load_pdf_text
      rw [hval, hlook]
    refine ⟨?_, ?_, ?_⟩
    · intro hpages
      rw [heq, if_pos hpages]
    · intro hpages htext
      rw [heq, if_neg (by simp [hpages]), if_pos htext]
    · intro hpages htext
      rw [heq, if_neg (by simp [hpages]), if_neg htext]

/-- C5: for every k, `query_vector_db` fails with the empty-query error
on a blank query; on a non-blank query it returns the text contents of
the oracle's ranked hits in order (metadata discarded), and when the
oracle returns at most k hits the result has at most k passages. -/
theorem query_vector_db_contract (env : Env) (s : ModState) (q : String)
    (k : Nat) :
    (pyStrip q = "" → query_vector_db env s q k = (.error .emptyQuery, s)) ∧
    (pyStrip q ≠ "" → ∀ (st : Store) (s' : ModState),
      get_vectorstore env s = (.ok st, s') →
      query_vector_db env s q k =
        (.ok ((env.similaritySearch st q k).map Doc.page_content), s') ∧
      ((env.similaritySearch st q k).length ≤ k →
        ((env.similaritySearch st q k).map Doc.page_content).length ≤ k)) := by
  constructor
  · intro h
    unfold query_vector_db
    simp [h]
  · intro h st s' hg
    unfold query_vector_db
    rw [if_neg h, hg]
    exact ⟨rfl, by simp⟩

/-- C5 witness: blank query fails for one k; a non-blank query returns
the oracle's single hit as text for another k. -/
theorem query_vector_db_contract_witness :
    query_vector_db envEmpty sSome " \t " 3 = (.error .emptyQuery, sSome) ∧
    query_vector_db envOne sSome "hi" 2 =
      (.ok ((envOne.similaritySearch ⟨7⟩ "hi" 2).map Doc.page_content), sSome) :=
  ⟨(query_vector_db_contract envEmpty sSome " \t " 3).1 (by decide),
    ((query_vector_db_contract envOne sSome "hi" 2).2 (by decide) ⟨7⟩ sSome
      rfl).1⟩

theorem pyJoin_cons (sep x : String) (xs : List String) :
    ∃ t, pyJoin sep (x :: xs) = x ++ t := by
  cases xs with
  | nil => exact ⟨"", by simp [pyJoin]⟩
  | cons b bs =>
    exact ⟨sep ++ pyJoin sep (b :: bs), by simp [pyJoin, String.append_assoc]⟩

/-- C8: under a successful vector query with k=3, `policy_lookup`
returns the literal "NO_MATCH" exactly when no passage came back;
otherwise it returns the stripped passages in ranked order, numbered
from 1 with the "[Passage i] " tag and joined by blank lines. -/
theorem policy_lookup_contract (env : Env) (s : ModState) (q : String)
    (s' : ModState) (passages : List String)
    (h : query_vector_db env s q 3 = (.ok passages, s')) :
    ((policy_lookup env s q).1 = .ok "NO_MATCH" ↔ passages = []) ∧
    (passages = [] → policy_lookup env s q = (.ok "NO_MATCH", s')) ∧
    (passages ≠ [] →
      policy_lookup env s q =
        (.ok (pyJoin "\n\n" ((List.enumFrom 1 passages).map
          fun pr => "[Passage " ++ toString pr.1 ++ "] " ++ pyStrip pr.2)),
          s')) := by
  cases passages with
  | nil =>
    have hres : policy_lookup env s q = (.ok "NO_MATCH", s') := by
      show policy_lookup_atK env s q policyLookupTopK = _
      unfold policy_lookup_atK
      rw [show policyLookupTopK = 3 from rfl, h]
      rfl
    refine ⟨?_, fun _ => hres, fun hne => absurd rfl hne⟩
    rw [hres]
    simp
  | cons a t =>
    have hres : policy_lookup env s q =
        (.ok (pyJoin "\n\n" ((List.enumFrom 1 (a :: t)).map
          fun pr => "[Passage " ++ toString pr.1 ++ "] " ++ pyStrip pr.2)),
          s') := by
      show policy_lookup_atK env s q policyLookupTopK = _
      unfold policy_lookup_atK
      rw [show policyLookupTopK = 3 from rfl, h]
      rfl
    have hne : pyJoin "\n\n" ((List.enumFrom 1 (a :: t)).map
        fun pr => "[Passage " ++ toString pr.1 ++ "] " ++ pyStrip pr.2) ≠
        "NO_MATCH" := by
      rw [show (List.enumFrom 1 (a :: t)).map
          (fun pr => "[Passage " ++ toString pr.1 ++ "] " ++ pyStrip pr.2) =
          ("[Passage " ++ toString (1 : Nat) ++ "] " ++ pyStrip a) ::
            (List.enumFrom 2 t).map
              (fun pr => "[Passage " ++ toString pr.1 ++ "] " ++ pyStrip pr.2)
        from rfl]
      obtain ⟨tl, htl⟩ := pyJoin_cons "\n\n"
        ("[Passage " ++ toString (1 : Nat) ++ "] " ++ pyStrip a)
        ((List.enumFrom 2 t).map
          fun pr => "[Passage " ++ toString pr.1 ++ "] " ++ pyStrip pr.2)
      rw [htl]
      intro hcontra
      have hdata := congrArg String.data hcontra
      simp only [String.data_append] at hdata
      simp only [List.cons_append] at hdata
      injection hdata with h1 _
      exact absurd h1 (by decide)
    refine ⟨?_, fun hnil => absurd hnil (by simp), fun _ => hres⟩
    rw [hres]
    simp only [Except.ok.injEq]
    constructor
    · intro hcontra
      exact absurd hcontra hne
    · intro hcontra
      exact absurd hcontra (by simp)

/-- C8 witness: an empty retrieval yields "NO_MATCH"; a one-passage
retrieval yields the tagged, stripped passage. -/
theorem policy_lookup_contract_witness :
    policy_lookup envEmpty sSome "hi" = (.ok "NO_MATCH", sSome) ∧
    policy_lookup envOne sSome "hi" =
      (.ok (pyJoin "\n\n" ((List.enumFrom 1 [" Policy text. "]).map
        fun pr => "[Passage " ++ toString pr.1 ++ "] " ++ pyStrip pr.2)),
        sSome) :=
  ⟨(policy_lookup_contract envEmpty sSome "hi" sSome [] rfl).2.1 rfl,
    (policy_lookup_contract envOne sSome "hi" sSome [" Policy text. "]
      rfl).2.2 (by simp)⟩

/-- C9: the agent tool queries the vector store with a top-k fixed at
3, while the low-level query function defaults to a top-k of 5; the
two constants are distinct and are wired exactly at those two places. -/
theorem top_k_inconsistency :
    policyLookupTopK = 3 ∧ queryDefaultK = 5 ∧
    policyLookupTopK ≠ queryDefaultK ∧
    (∀ (env : Env) (s : ModState) (q : String),
      policy_lookup env s q = policy_lookup_atK env s q policyLookupTopK) ∧
    (∀ (env : Env) (s : ModState) (q : String),
      query_vector_db env s q = query_vector_db env s q queryDefaultK) :=
  ⟨rfl, rfl, by decide, fun _ _ _ => rfl, fun _ _ _ => rfl⟩

/-- C1 witness: from a state without the index directory, the first
`init_vectorstore` builds once (counter 0 to 1) and the second run on
the resulting state returns the same store and state unchanged. -/
theorem init_vectorstore_load_or_build_witness :
    pathExists sNone.fs "idx" = false ∧
    s1W.builds = sNone.builds + 1 ∧
    init_vectorstore envOne s1W "p.pdf" "idx" = (.ok ⟨0⟩, s1W) := by
  have h := init_vectorstore_load_or_build envOne sNone "p.pdf" "idx" ⟨0⟩ s1W
    (by decide) (by decide)
  exact ⟨by decide, h.2.1, h.2.2.2.2.2.1⟩

/-- C2 witness: on a state already holding store 7, `get_vectorstore`
returns that store and the unchanged state. -/
theorem vectorstore_singleton_witness :
    get_vectorstore envEmpty sSome = (.ok ⟨7⟩, sSome) :=
  (vectorstore_singleton envEmpty sSome ⟨7⟩ rfl).1

/-- C4 (amended) witness: one concrete input per loader case. -/
theorem load_pdf_text_contract_witness :
    load_pdf_text fsC4 "missing.pdf" = .error .fileNotFound ∧
    load_pdf_text fsC4 "notes.txt" = .error .invalidFormat ∧
    load_pdf_text fsC4 "empty.pdf" = .error .emptyContent ∧
    load_pdf_text fsC4 "blank.pdf" = .error .emptyContent ∧
    load_pdf_text fsC4 "doc.pdf" = .ok "a\nb" := by
  refine ⟨(load_pdf_text_contract fsC4 "missing.pdf").1 (by decide),
    (load_pdf_text_contract fsC4 "notes.txt").2.1 (by decide) (by decide),
    ((load_pdf_text_contract fsC4 "empty.pdf").2.2 ⟨[]⟩ (by decide)
      (by decide) (by decide)).1 (by decide),
    ((load_pdf_text_contract fsC4 "blank.pdf").2.2 ⟨[some "  ", none]⟩
      (by decide) (by decide) (by decide)).2.1 (by decide) (by decide),
    ?_⟩
  have h := ((load_pdf_text_contract fsC4 "doc.pdf").2.2
    ⟨[some " a ", some "b"]⟩ (by decide) (by decide) (by decide)).2.2
    (by decide) (by decide)
  exact h.trans (by decide)

/-- C10 witness: a blank query fails with the empty-query error and
leaves the uninitialized state untouched. -/
theorem query_blank_leaves_state_witness :
    query_vector_db envEmpty sNone "" 4 = (.error .emptyQuery, sNone) ∧
    (query_vector_db envEmpty sNone "" 4).2.vectorstore = sNone.vectorstore ∧
    (query_vector_db envEmpty sNone "" 4).2.builds = sNone.builds :=
  query_blank_leaves_state envEmpty sNone "" 4 (by decide)

end MAS
